import Mathlib

/-!
Shallow embedding of the LoanCentral bot core (src/loan_central_bot.py):
the command dispatch of `comment_monitor`, the four ledger-mutating
command handlers (`process_loan_command`, `process_confirm_command`,
`process_paid_command`, `process_refund_command`) and the two relational
tables (`loans`, `users`) they read and write.

Modelling conventions:
- SQL NUMERIC (Python `Decimal`) amounts are rationals `ℚ`; the program
  only adds, subtracts, compares and clamps them, so `ℚ` is exact.
- SQL INTEGER counters are `Int` (so that the `GREATEST(x - 1, 0)`
  clamps are meaningful statements, not forced by the type).
- The `loans` table is a `List Loan`; `id SERIAL` is modelled by the
  `nextId` counter of the ledger.  The `users` table is an association
  list keyed by username; `UPDATE ... WHERE username = u` maps over all
  rows with that key (the primary key keeps it unique in practice) and
  is a no-op when the row is absent, exactly like SQL `UPDATE`;
  `INSERT ... ON CONFLICT (username) DO UPDATE` is `upsertUser`.
- `last_updated` timestamps are not modelled (no claim mentions them);
  `date_created` is kept as a `Nat` because the refund lookup orders by
  it.  Reply formatting is reduced to the semantically relevant payload
  (outcome tag and reported remaining balance).
-/

/-- Lowercase a string character by character, mirroring the Python
`str.lower()` calls applied to usernames. -/
def lowerStr (s : String) : String := String.mk (s.data.map Char.toLower)

/-- Uppercase a string character by character, mirroring the Python
`str.upper()` calls applied to currency codes. -/
def upperStr (s : String) : String := String.mk (s.data.map Char.toUpper)

/-- Substring containment test, mirroring the Python `in` operator on
strings used by `comment_monitor` to pick a handler. -/
def strContains (s pat : String) : Bool :=
  go pat.data s.data
where
  go (pat : List Char) : List Char → Bool
    | [] => pat.isEmpty
    | c :: rest => pat.isPrefixOf (c :: rest) || go pat rest

/-- Status values stored in the `loans.status` column.  `active` is the
column default from `init_database`; every insert performed by the code
supplies `confirmed` explicitly. -/
inductive LoanStatus where
  | active
  | confirmed
  | partiallyRepaid
  | repaid
  | refunded
deriving DecidableEq, Repr

/-- Row of the `loans` table. -/
structure Loan where
  id : Nat
  loanIdText : String
  lender : String
  borrower : String
  amount : ℚ
  currency : String
  dateCreated : Nat
  originalThread : String
  status : LoanStatus
  amountRepaid : ℚ
deriving DecidableEq, Repr

/-- Row of the `users` statistics table. -/
structure UserStats where
  loansAsBorrower : Int
  loansAsLender : Int
  amountBorrowed : ℚ
  amountLent : ℚ
  amountRepaid : ℚ
  unpaidLoans : Int
  unpaidAmount : ℚ
deriving DecidableEq, Repr

/-- Column defaults of the `users` table: every field defaults to 0. -/
def UserStats.zero : UserStats :=
  { loansAsBorrower := 0, loansAsLender := 0, amountBorrowed := 0
    amountLent := 0, amountRepaid := 0, unpaidLoans := 0, unpaidAmount := 0 }

/-- The relational state: the two tables plus the SERIAL id counter. -/
structure Ledger where
  loans : List Loan
  users : List (String × UserStats)
  nextId : Nat
deriving DecidableEq, Repr

/-- Freshly initialised database (`init_database`): empty tables,
SERIAL counter at 1. -/
def Ledger.init : Ledger := { loans := [], users := [], nextId := 1 }

/-- SELECT of a `users` row by primary key. -/
def findUser : List (String × UserStats) → String → Option UserStats
  | [], _ => none
  | p :: rest, u => if p.1 == u then some p.2 else findUser rest u

/-- SQL `UPDATE users SET ... WHERE username = u`: applies `f` to every
row keyed `u`, no-op when the row is absent. -/
def updateUser (us : List (String × UserStats)) (u : String)
    (f : UserStats → UserStats) : List (String × UserStats) :=
  us.map (fun p => if p.1 == u then (p.1, f p.2) else p)

/-- SQL `INSERT ... ON CONFLICT (username) DO UPDATE`: insert `init`
when the row is absent, else update with `f`. -/
def upsertUser (us : List (String × UserStats)) (u : String)
    (init : UserStats) (f : UserStats → UserStats) : List (String × UserStats) :=
  match findUser us u with
  | some _ => updateUser us u f
  | none => us ++ [(u, init)]

/-- Stats of a user as read back, with absent rows read as all-zero
(matching the COALESCE reads in `generate_user_info`). -/
def statsOf (st : Ledger) (u : String) : UserStats :=
  (findUser st.users u).getD UserStats.zero

/-! ## Offer: `process_loan_command` -/

/-- Outcome of `process_loan_command`.  `crashNoPostAuthor` models the
uncaught `AttributeError` raised by `post.author.name` when the post has
no author (caught and logged by the `comment_monitor` loop); no reply is
sent and the database is never touched on any path. -/
inductive OfferOutcome where
  | noMatch
  | crashNoPostAuthor
  | selfLoanRejected
  | offerReply (lender borrower : String) (amount : ℚ) (currency : String)
deriving DecidableEq, Repr

/-- Whether the outcome carries a user-facing reply. -/
def OfferOutcome.hasReply : OfferOutcome → Bool
  | .offerReply _ _ _ _ => true
  | _ => false

/-- Embedding of `process_loan_command`.  `parsed` is the result of the
`\$loan <amount> <CCY>` regex (group 1 as an exact decimal, group 2 raw);
the function never opens a database connection. -/
def processLoanOffer (parsed : Option (ℚ × String)) (author : String)
    (postAuthor : Option String) (st : Ledger) : Ledger × OfferOutcome :=
  match parsed with
  | none => (st, .noMatch)
  | some (amount, ccyRaw) =>
    let lender := lowerStr author
    match postAuthor with
    | none => (st, .crashNoPostAuthor)
    | some pa =>
      let borrower := lowerStr pa
      if borrower = lender then (st, .selfLoanRejected)
      else (st, .offerReply lender borrower amount (upperStr ccyRaw))

/-! ## Confirm: `process_confirm_command` -/

/-- Initial lender row inserted by the confirm handler:
`VALUES (%s, 1, %s, %s)` into `(username, loans_as_lender, amount_lent)`. -/
def confirmLenderInit (amount : ℚ) : UserStats :=
  { UserStats.zero with loansAsLender := 1, amountLent := amount }

/-- Conflict update of the lender row:
`loans_as_lender + 1`, `amount_lent + amount`. -/
def confirmLenderUpd (amount : ℚ) (s : UserStats) : UserStats :=
  { s with loansAsLender := s.loansAsLender + 1, amountLent := s.amountLent + amount }

/-- Initial borrower row inserted by the confirm handler:
`VALUES (%s, 1, %s, %s)` into `(username, loans_as_borrower, amount_borrowed)`. -/
def confirmBorrowerInit (amount : ℚ) : UserStats :=
  { UserStats.zero with loansAsBorrower := 1, amountBorrowed := amount }

/-- Conflict update of the borrower row:
`loans_as_borrower + 1`, `amount_borrowed + amount`. -/
def confirmBorrowerUpd (amount : ℚ) (s : UserStats) : UserStats :=
  { s with loansAsBorrower := s.loansAsBorrower + 1
           amountBorrowed := s.amountBorrowed + amount }

/-- Reply payload of a successful confirm (the template later parsed by
the refund handler, including the SERIAL `db_id` for `\$paid_with_id`). -/
structure ConfirmReply where
  borrower : String
  lender : String
  amount : ℚ
  currency : String
  dbId : Nat
deriving DecidableEq, Repr

/-- Embedding of `process_confirm_command` after a successful regex
match: `borrower` is the comment author lowercased, `lender` the named
user lowercased, the currency is uppercased; the loan row is inserted
with `status = confirmed` and the column default `amount_repaid = 0`,
then the two user rows are upserted.  Note: no `lender != borrower`
check exists on this path. -/
def processConfirm (author namedLender : String) (amount : ℚ)
    (currency thread : String) (now : Nat) (st : Ledger) :
    Ledger × ConfirmReply :=
  let borrower := lowerStr author
  let lender := lowerStr namedLender
  let ccy := upperStr currency
  let newLoan : Loan :=
    { id := st.nextId, loanIdText := toString now, lender := lender
      borrower := borrower, amount := amount, currency := ccy
      dateCreated := now, originalThread := thread
      status := .confirmed, amountRepaid := 0 }
  let users1 := upsertUser st.users lender (confirmLenderInit amount) (confirmLenderUpd amount)
  let users2 := upsertUser users1 borrower (confirmBorrowerInit amount) (confirmBorrowerUpd amount)
  ({ loans := st.loans ++ [newLoan], users := users2, nextId := st.nextId + 1 },
   { borrower := borrower, lender := lender, amount := amount, currency := ccy
     dbId := st.nextId })

/-! ## Paid: `process_paid_command` -/

/-- First row of a loan list satisfying `id = loanId AND lender = lender`. -/
def findLoanInList (loanId : Nat) (lender : String) : List Loan → Option Loan
  | [] => none
  | l :: rest =>
    if l.id == loanId && l.lender == lender then some l
    else findLoanInList loanId lender rest

/-- SELECT of `process_paid_command`:
`WHERE id = %s AND lender = %s` — note that the status column is not
part of the predicate. -/
def findLoanForPayment (st : Ledger) (loanId : Nat) (lender : String) : Option Loan :=
  findLoanInList loanId lender st.loans

/-- Borrower aggregate update of the paid handler:
`amount_repaid = amount_repaid + %s`. -/
def paidAggUpd (amountPaid : ℚ) (s : UserStats) : UserStats :=
  { s with amountRepaid := s.amountRepaid + amountPaid }

/-- Clamped decrement run by the paid handler when the new status is
`repaid`: `unpaid_loans = GREATEST(unpaid_loans - 1, 0)`,
`unpaid_amount = GREATEST(unpaid_amount - loan_amount, 0)`. -/
def paidClampUpd (loanAmount : ℚ) (s : UserStats) : UserStats :=
  { s with unpaidLoans := max (s.unpaidLoans - 1) 0
           unpaidAmount := max (s.unpaidAmount - loanAmount) 0 }

/-- Outcome of `process_paid_command`; `success` carries the remaining
balance reported in the reply (the before/after snapshot table of the
reply is display formatting and is not modelled). -/
inductive PaidOutcome where
  | loanNotFound
  | currencyMismatch
  | success (remaining : ℚ)
deriving DecidableEq, Repr

/-- Whether a paid outcome is a success. -/
def PaidOutcome.isSuccess : PaidOutcome → Bool
  | .success _ => true
  | _ => false

/-- Embedding of `process_paid_command` after a successful regex match.
The lookup is by id and lender only; a currency mismatch replies an
error; otherwise `amount_repaid` is increased, the status recomputed
(`repaid` iff the new total reaches the principal), the borrower
aggregate incremented, the clamped unpaid decrement run whenever the
new status is `repaid`, and the reply reports
`remaining` if positive else `0`. -/
def processPaid (author : String) (loanId : Nat) (amountPaid : ℚ)
    (currency : String) (st : Ledger) : Ledger × PaidOutcome :=
  let lender := lowerStr author
  let ccy := upperStr currency
  match findLoanForPayment st loanId lender with
  | none => (st, .loanNotFound)
  | some loan =>
    if loan.currency ≠ ccy then (st, .currencyMismatch)
    else
      let newRepaid := loan.amountRepaid + amountPaid
      let newStatus : LoanStatus :=
        if newRepaid ≥ loan.amount then .repaid else .partiallyRepaid
      let loans1 := st.loans.map (fun l =>
        if l.id == loanId then { l with amountRepaid := newRepaid, status := newStatus } else l)
      let users1 := updateUser st.users loan.borrower (paidAggUpd amountPaid)
      let users2 :=
        if newStatus = .repaid then
          updateUser users1 loan.borrower (paidClampUpd loan.amount)
        else users1
      let remaining := loan.amount - newRepaid
      ({ st with loans := loans1, users := users2 },
       .success (if remaining > 0 then remaining else 0))

/-! ## Refund: `process_refund_command` -/

/-- Row filter of the refund SELECT:
`WHERE lender = %s AND borrower = %s AND amount = %s AND currency = %s` —
note that the status column is not part of the predicate. -/
def matchesRefund (lender borrower : String) (amount : ℚ) (ccy : String)
    (l : Loan) : Bool :=
  l.lender == lender && l.borrower == borrower &&
    decide (l.amount = amount) && l.currency == ccy

/-- ORDER BY `date_created` DESC LIMIT 1. -/
def mostRecent : List Loan → Option Loan
  | [] => none
  | l :: rest =>
    match mostRecent rest with
    | none => some l
    | some m => if m.dateCreated > l.dateCreated then some m else some l

/-- Refund loan lookup (`findActiveLoanForRefund` of the specification):
most recent row matching lender, borrower, amount and currency. -/
def findLoanForRefund (st : Ledger) (lender borrower : String)
    (amount : ℚ) (ccy : String) : Option Loan :=
  mostRecent (st.loans.filter (matchesRefund lender borrower amount ccy))

/-- Clamped lender decrement of the refund handler:
`loans_as_lender = GREATEST(loans_as_lender - 1, 0)`,
`amount_lent = GREATEST(amount_lent - %s, 0)`. -/
def refundLenderUpd (amount : ℚ) (s : UserStats) : UserStats :=
  { s with loansAsLender := max (s.loansAsLender - 1) 0
           amountLent := max (s.amountLent - amount) 0 }

/-- Clamped borrower decrement of the refund handler:
`loans_as_borrower = GREATEST(loans_as_borrower - 1, 0)`,
`amount_borrowed = GREATEST(amount_borrowed - %s, 0)`. -/
def refundBorrowerUpd (amount : ℚ) (s : UserStats) : UserStats :=
  { s with loansAsBorrower := max (s.loansAsBorrower - 1) 0
           amountBorrowed := max (s.amountBorrowed - amount) 0 }

/-- Outcome of `process_refund_command` once the parent comment was
recognised as a bot confirm template and parsed. -/
inductive RefundOutcome where
  | notLender
  | notFound
  | success
deriving DecidableEq, Repr

/-- Embedding of `process_refund_command` after the parent template was
parsed into `(borrower, amount, currency, lender)`.  Only the lender may
trigger it; the matching loan (most recent by `date_created`) has its
status set to `refunded` and both users get clamped decrements. -/
def processRefund (author borrower lender : String) (amount : ℚ)
    (currency : String) (st : Ledger) : Ledger × RefundOutcome :=
  if lowerStr author ≠ lender then (st, .notLender)
  else
    match findLoanForRefund st lender borrower amount currency with
    | none => (st, .notFound)
    | some loan =>
      let loans1 := st.loans.map (fun l =>
        if l.id == loan.id then { l with status := LoanStatus.refunded } else l)
      let users1 := updateUser st.users lender (refundLenderUpd amount)
      let users2 := updateUser users1 borrower (refundBorrowerUpd amount)
      ({ st with loans := loans1, users := users2 }, .success)

/-! ## Dispatch: `comment_monitor` -/

/-- The five command handlers reachable from `comment_monitor`. -/
inductive Handler where
  | offer
  | confirm
  | paid
  | refund
  | stats
deriving DecidableEq, Repr

/-- Keyword marker checked (by substring containment on the lowercased
body) for each handler in `comment_monitor`. -/
def Handler.marker : Handler → String
  | .offer => "$loan"
  | .confirm => "$confirm"
  | .paid => "$paid_with_id"
  | .refund => "refunded"
  | .stats => "$stats"

/-- Position of each handler in the if/elif chain of `comment_monitor`. -/
def Handler.prec : Handler → Nat
  | .offer => 0
  | .confirm => 1
  | .paid => 2
  | .refund => 3
  | .stats => 4

/-- Embedding of the if/elif dispatch chain of `comment_monitor`: the
body is lowercased and the first marker contained in it selects the
handler; at most one handler is selected. -/
def dispatch (body : String) : Option Handler :=
  let b := lowerStr body
  if strContains b "$loan" then some .offer
  else if strContains b "$confirm" then some .confirm
  else if strContains b "$paid_with_id" then some .paid
  else if strContains b "refunded" then some .refund
  else if strContains b "$stats" then some .stats
  else none

/-! ## Reachable ledger states -/

/-- Ledger states reachable from the freshly initialised database by
the ledger-mutating command handlers.  The `0 ≤ amount` side conditions
record that every amount reaching a handler was parsed by the
`(\d+(?:\.\d+)?)` regex group and is therefore a non-negative decimal. -/
inductive Reachable : Ledger → Prop where
  | init : Reachable Ledger.init
  | offer (parsed : Option (ℚ × String)) (author : String)
      (postAuthor : Option String) {st : Ledger} (hst : Reachable st) :
      Reachable (processLoanOffer parsed author postAuthor st).1
  | confirm (author namedLender : String) (amount : ℚ)
      (currency thread : String) (now : Nat) {st : Ledger}
      (hst : Reachable st) (hamt : 0 ≤ amount) :
      Reachable (processConfirm author namedLender amount currency thread now st).1
  | paid (author : String) (loanId : Nat) (amountPaid : ℚ) (currency : String)
      {st : Ledger} (hst : Reachable st) (hamt : 0 ≤ amountPaid) :
      Reachable (processPaid author loanId amountPaid currency st).1
  | refund (author borrower lender : String) (amount : ℚ) (currency : String)
      {st : Ledger} (hst : Reachable st) (hamt : 0 ≤ amount) :
      Reachable (processRefund author borrower lender amount currency st).1

/-! ## Invariant predicates -/

/-- Non-negativity of every statistics field of a `users` row. -/
def GoodStats (s : UserStats) : Prop :=
  0 ≤ s.loansAsBorrower ∧ 0 ≤ s.loansAsLender ∧ 0 ≤ s.amountBorrowed ∧
  0 ≤ s.amountLent ∧ 0 ≤ s.amountRepaid ∧ 0 ≤ s.unpaidLoans ∧ 0 ≤ s.unpaidAmount

/-- The unpaid counters of a `users` row are zero (no core command ever
increments them). -/
def ZeroUnpaid (s : UserStats) : Prop := s.unpaidLoans = 0 ∧ s.unpaidAmount = 0

/-- Combined invariant of reachable ledgers: loan principals are
non-negative, and every `users` row has non-negative fields and zero
unpaid counters. -/
def LedgerInv (st : Ledger) : Prop :=
  (∀ l ∈ st.loans, 0 ≤ l.amount) ∧
  ∀ p ∈ st.users, GoodStats p.2 ∧ ZeroUnpaid p.2

/-! ## Concrete test fixtures -/

/-- A loan row already fully repaid (terminal status `repaid`). -/
def repaidLoanEx : Loan :=
  { id := 1, loanIdText := "100", lender := "alice", borrower := "bob"
    amount := 50, currency := "USD", dateCreated := 100, originalThread := "t"
    status := LoanStatus.repaid, amountRepaid := 50 }

/-- A ledger holding only the repaid loan. -/
def repaidLedger : Ledger :=
  { loans := [repaidLoanEx], users := [], nextId := 2 }

/-- A confirmed loan row, target of a double refund. -/
def confirmedLoanEx : Loan :=
  { id := 1, loanIdText := "100", lender := "alice", borrower := "bob"
    amount := 50, currency := "USD", dateCreated := 100, originalThread := "t"
    status := LoanStatus.confirmed, amountRepaid := 0 }

/-- A ledger holding only the confirmed loan. -/
def refundTwiceStart : Ledger :=
  { loans := [confirmedLoanEx], users := [], nextId := 2 }

/-- The loan of Example 4 of the specification: id 7, currency USD. -/
def mismatchLoanEx : Loan :=
  { id := 7, loanIdText := "100", lender := "alice", borrower := "bob"
    amount := 50, currency := "USD", dateCreated := 100, originalThread := "t"
    status := LoanStatus.confirmed, amountRepaid := 0 }

/-- A ledger holding only the Example 4 loan. -/
def mismatchLedger : Ledger :=
  { loans := [mismatchLoanEx], users := [], nextId := 2 }

/-- A confirmed loan with an existing borrower statistics row. -/
def paidLoanEx : Loan :=
  { id := 1, loanIdText := "90", lender := "alice", borrower := "bob"
    amount := 50, currency := "USD", dateCreated := 90, originalThread := "t"
    status := LoanStatus.confirmed, amountRepaid := 0 }

/-- A ledger holding the confirmed loan plus the borrower row. -/
def paidLedger : Ledger :=
  { loans := [paidLoanEx], users := [("bob", UserStats.zero)], nextId := 2 }

/-- The ledger reached from the fresh database by one confirm command. -/
def confirmEx : Ledger :=
  (processConfirm "Bob" "Alice" 50 "USD" "t" 100 Ledger.init).1

/-! ## Lemmas about the users table -/

theorem findUser_updateUser (us : List (String × UserStats)) (u : String)
    (f : UserStats → UserStats) (v : String) :
    findUser (updateUser us u f) v =
      if v = u then (findUser us u).map f else findUser us v := by
  induction us with
  | nil => simp [findUser, updateUser]
  | cons p rest ih =>
    obtain ⟨k, s⟩ := p
    by_cases hku : k = u <;> by_cases hkv : k = v <;> by_cases hvu : v = u <;>
      simp_all [findUser, updateUser, beq_iff_eq]

theorem findUser_append (xs ys : List (String × UserStats)) (v : String) :
    findUser (xs ++ ys) v = ((findUser xs v).orElse (fun _ => findUser ys v)) := by
  induction xs with
  | nil => simp [findUser]
  | cons p rest ih =>
    by_cases hv : p.1 = v <;> simp_all [findUser, beq_iff_eq]

theorem findUser_upsertUser (us : List (String × UserStats)) (u : String)
    (init : UserStats) (f : UserStats → UserStats) (v : String) :
    findUser (upsertUser us u init f) v =
      if v = u then some ((findUser us u).elim init f) else findUser us v := by
  unfold upsertUser
  rcases h : findUser us u with _ | s
  · rw [findUser_append]
    by_cases hvu : v = u
    · subst hvu; simp [h, findUser]
    · rcases hv : findUser us v with _ | t <;>
        simp [hv, hvu, findUser, beq_iff_eq, Ne.symm hvu]
  · rw [findUser_updateUser]
    by_cases hvu : v = u <;> simp [hvu, h]

/-! ## Effect of the confirm handler -/

theorem processConfirm_loans (st : Ledger) (author namedLender : String)
    (amount : ℚ) (currency thread : String) (now : Nat) :
    (processConfirm author namedLender amount currency thread now st).1.loans =
      st.loans ++
        [{ id := st.nextId, loanIdText := toString now
           lender := lowerStr namedLender, borrower := lowerStr author
           amount := amount, currency := upperStr currency
           dateCreated := now, originalThread := thread
           status := LoanStatus.confirmed, amountRepaid := 0 }] := rfl

theorem confirm_upsert_stats (us : List (String × UserStats))
    (lender borrower : String) (amount : ℚ) :
    ((findUser (upsertUser
        (upsertUser us lender (confirmLenderInit amount) (confirmLenderUpd amount))
        borrower (confirmBorrowerInit amount) (confirmBorrowerUpd amount))
        lender).getD UserStats.zero).loansAsLender
      = ((findUser us lender).getD UserStats.zero).loansAsLender + 1 ∧
    ((findUser (upsertUser
        (upsertUser us lender (confirmLenderInit amount) (confirmLenderUpd amount))
        borrower (confirmBorrowerInit amount) (confirmBorrowerUpd amount))
        lender).getD UserStats.zero).amountLent
      = ((findUser us lender).getD UserStats.zero).amountLent + amount ∧
    ((findUser (upsertUser
        (upsertUser us lender (confirmLenderInit amount) (confirmLenderUpd amount))
        borrower (confirmBorrowerInit amount) (confirmBorrowerUpd amount))
        borrower).getD UserStats.zero).loansAsBorrower
      = ((findUser us borrower).getD UserStats.zero).loansAsBorrower + 1 ∧
    ((findUser (upsertUser
        (upsertUser us lender (confirmLenderInit amount) (confirmLenderUpd amount))
        borrower (confirmBorrowerInit amount) (confirmBorrowerUpd amount))
        borrower).getD UserStats.zero).amountBorrowed
      = ((findUser us borrower).getD UserStats.zero).amountBorrowed + amount := by
  by_cases hlb : borrower = lender
  · subst hlb
    rcases h : findUser us borrower with _ | s <;>
      simp [findUser_upsertUser, h, confirmLenderInit, confirmLenderUpd,
        confirmBorrowerInit, confirmBorrowerUpd, UserStats.zero]
  · have hbl : ¬ lender = borrower := fun hh => hlb hh.symm
    rcases h1 : findUser us lender with _ | s1 <;>
      rcases h2 : findUser us borrower with _ | s2 <;>
        simp [findUser_upsertUser, h1, h2, hlb, hbl, confirmLenderInit,
          confirmLenderUpd, confirmBorrowerInit, confirmBorrowerUpd, UserStats.zero]

theorem processConfirm_stats (st : Ledger) (author namedLender : String)
    (amount : ℚ) (currency thread : String) (now : Nat) :
    ((statsOf (processConfirm author namedLender amount currency thread now st).1
        (lowerStr namedLender)).loansAsLender =
      (statsOf st (lowerStr namedLender)).loansAsLender + 1) ∧
    ((statsOf (processConfirm author namedLender amount currency thread now st).1
        (lowerStr namedLender)).amountLent =
      (statsOf st (lowerStr namedLender)).amountLent + amount) ∧
    ((statsOf (processConfirm author namedLender amount currency thread now st).1
        (lowerStr author)).loansAsBorrower =
      (statsOf st (lowerStr author)).loansAsBorrower + 1) ∧
    ((statsOf (processConfirm author namedLender amount currency thread now st).1
        (lowerStr author)).amountBorrowed =
      (statsOf st (lowerStr author)).amountBorrowed + amount) :=
  confirm_upsert_stats st.users (lowerStr namedLender) (lowerStr author) amount

/-! ## Lemmas about the paid handler -/

theorem findLoanInList_mem {loanId : Nat} {lender : String} {ls : List Loan}
    {loan : Loan} (h : findLoanInList loanId lender ls = some loan) :
    loan ∈ ls := by
  induction ls with
  | nil => simp [findLoanInList] at h
  | cons l rest ih =>
    rw [findLoanInList] at h
    by_cases hc : (l.id == loanId && l.lender == lender) = true
    · rw [if_pos hc] at h
      cases h
      exact List.mem_cons_self _ _
    · rw [if_neg hc] at h
      exact List.mem_cons_of_mem _ (ih h)

theorem findLoanInList_map_paid {loanId : Nat} {lender : String} {ls : List Loan}
    {loan : Loan} (n : ℚ) (ns : LoanStatus)
    (h : findLoanInList loanId lender ls = some loan) :
    findLoanInList loanId lender
        (ls.map (fun l => if l.id == loanId
          then { l with amountRepaid := n, status := ns } else l)) =
      some { loan with amountRepaid := n, status := ns } := by
  induction ls with
  | nil => simp [findLoanInList] at h
  | cons l rest ih =>
    rw [findLoanInList] at h
    rw [List.map_cons]
    by_cases hc : (l.id == loanId && l.lender == lender) = true
    · rw [if_pos hc] at h
      cases h
      have hid : (loan.id == loanId) = true := by
        have := hc
        simp only [Bool.and_eq_true] at this
        exact this.1
      rw [if_pos hid, findLoanInList]
      have hc2 : (({ loan with amountRepaid := n, status := ns } : Loan).id == loanId &&
          ({ loan with amountRepaid := n, status := ns } : Loan).lender == lender) = true := hc
      rw [if_pos hc2]
    · rw [if_neg hc] at h
      by_cases hid : (l.id == loanId) = true
      · rw [if_pos hid, findLoanInList]
        have hc2 : (({ l with amountRepaid := n, status := ns } : Loan).id == loanId &&
            ({ l with amountRepaid := n, status := ns } : Loan).lender == lender) = false := by
          simpa using hc
        rw [hc2]
        simpa using ih h
      · rw [if_neg hid, findLoanInList, if_neg hc]
        exact ih h

theorem processPaid_found_eq (st : Ledger) (author : String) (loanId : Nat)
    (amountPaid : ℚ) (currency : String) (loan : Loan)
    (hfind : findLoanForPayment st loanId (lowerStr author) = some loan)
    (hccy : loan.currency = upperStr currency) :
    processPaid author loanId amountPaid currency st =
      ({ loans := st.loans.map (fun l => if l.id == loanId
            then { l with amountRepaid := loan.amountRepaid + amountPaid
                          status := if loan.amountRepaid + amountPaid ≥ loan.amount
                            then LoanStatus.repaid else LoanStatus.partiallyRepaid }
            else l)
         users :=
          if (if loan.amountRepaid + amountPaid ≥ loan.amount
              then LoanStatus.repaid else LoanStatus.partiallyRepaid) = LoanStatus.repaid
          then updateUser (updateUser st.users loan.borrower (paidAggUpd amountPaid))
                loan.borrower (paidClampUpd loan.amount)
          else updateUser st.users loan.borrower (paidAggUpd amountPaid)
         nextId := st.nextId },
       PaidOutcome.success (if loan.amount - (loan.amountRepaid + amountPaid) > 0
          then loan.amount - (loan.amountRepaid + amountPaid) else 0)) := by
  simp only [processPaid, hfind]
  simp [hccy]

theorem rat_if_pos_eq_max (x : ℚ) : (if x > 0 then x else 0) = max x 0 := by
  rcases le_or_lt x 0 with h | h
  · rw [if_neg (not_lt.mpr h), max_eq_right h]
  · rw [if_pos h, max_eq_left h.le]

theorem processPaid_notFound_eq (st : Ledger) (author : String) (loanId : Nat)
    (amountPaid : ℚ) (currency : String)
    (hfind : findLoanForPayment st loanId (lowerStr author) = none) :
    processPaid author loanId amountPaid currency st = (st, PaidOutcome.loanNotFound) := by
  simp only [processPaid, hfind]

theorem processPaid_mismatch_eq (st : Ledger) (author : String) (loanId : Nat)
    (amountPaid : ℚ) (currency : String) (loan : Loan)
    (hfind : findLoanForPayment st loanId (lowerStr author) = some loan)
    (hne : loan.currency ≠ upperStr currency) :
    processPaid author loanId amountPaid currency st = (st, PaidOutcome.currencyMismatch) := by
  simp only [processPaid, hfind]
  simp [hne]

theorem processPaid_borrower_stats (st : Ledger) (author : String) (loanId : Nat)
    (amountPaid : ℚ) (currency : String) (loan : Loan) (sB : UserStats)
    (hfind : findLoanForPayment st loanId (lowerStr author) = some loan)
    (hccy : loan.currency = upperStr currency)
    (hrow : findUser st.users loan.borrower = some sB) :
    ((statsOf (processPaid author loanId amountPaid currency st).1 loan.borrower).amountRepaid
        = sB.amountRepaid + amountPaid) ∧
    (loan.amountRepaid + amountPaid ≥ loan.amount →
      (statsOf (processPaid author loanId amountPaid currency st).1 loan.borrower).unpaidLoans
          = max (sB.unpaidLoans - 1) 0 ∧
      (statsOf (processPaid author loanId amountPaid currency st).1 loan.borrower).unpaidAmount
          = max (sB.unpaidAmount - loan.amount) 0) ∧
    (¬ loan.amountRepaid + amountPaid ≥ loan.amount →
      (statsOf (processPaid author loanId amountPaid currency st).1 loan.borrower).unpaidLoans
          = sB.unpaidLoans ∧
      (statsOf (processPaid author loanId amountPaid currency st).1 loan.borrower).unpaidAmount
          = sB.unpaidAmount) := by
  have heq := processPaid_found_eq st author loanId amountPaid currency loan hfind hccy
  by_cases hrep : loan.amountRepaid + amountPaid ≥ loan.amount
  · have husers : (processPaid author loanId amountPaid currency st).1.users =
        updateUser (updateUser st.users loan.borrower (paidAggUpd amountPaid))
          loan.borrower (paidClampUpd loan.amount) := by
      rw [heq]; simp [hrep]
    have hfu : findUser (processPaid author loanId amountPaid currency st).1.users loan.borrower
        = some (paidClampUpd loan.amount (paidAggUpd amountPaid sB)) := by
      rw [husers, findUser_updateUser, if_pos rfl, findUser_updateUser, if_pos rfl, hrow]
      rfl
    refine ⟨?_, fun _ => ⟨?_, ?_⟩, fun hc => absurd hrep hc⟩ <;>
      simp [statsOf, hfu, paidAggUpd, paidClampUpd]
  · have husers : (processPaid author loanId amountPaid currency st).1.users =
        updateUser st.users loan.borrower (paidAggUpd amountPaid) := by
      rw [heq]; simp [hrep]
    have hfu : findUser (processPaid author loanId amountPaid currency st).1.users loan.borrower
        = some (paidAggUpd amountPaid sB) := by
      rw [husers, findUser_updateUser, if_pos rfl, hrow]
      rfl
    refine ⟨?_, fun hc => absurd hc hrep, fun _ => ⟨?_, ?_⟩⟩ <;>
      simp [statsOf, hfu, paidAggUpd]

/-! ## Lemmas about the refund handler -/

theorem mostRecent_mem {ls : List Loan} {x : Loan} (h : mostRecent ls = some x) :
    x ∈ ls := by
  induction ls with
  | nil => simp [mostRecent] at h
  | cons l rest ih =>
    rcases hm : mostRecent rest with _ | m <;> simp only [mostRecent, hm] at h
    · cases h; exact List.mem_cons_self _ _
    · by_cases hd : m.dateCreated > l.dateCreated
      · rw [if_pos hd] at h; cases h; exact List.mem_cons_of_mem _ (ih hm)
      · rw [if_neg hd] at h; cases h; exact List.mem_cons_self _ _

theorem mostRecent_isSome {ls : List Loan} (h : ls ≠ []) :
    (mostRecent ls).isSome = true := by
  cases ls with
  | nil => exact absurd rfl h
  | cons l rest =>
    rcases hm : mostRecent rest with _ | m <;> simp only [mostRecent, hm]
    · rfl
    · by_cases hd : m.dateCreated > l.dateCreated
      · rw [if_pos hd]; rfl
      · rw [if_neg hd]; rfl

theorem findLoanForRefund_of_matching (st : Ledger) (lender borrower : String)
    (amount : ℚ) (ccy : String) (l : Loan) (hl : l ∈ st.loans)
    (hm : matchesRefund lender borrower amount ccy l = true) :
    ∃ found, findLoanForRefund st lender borrower amount ccy = some found ∧
      found ∈ st.loans ∧ matchesRefund lender borrower amount ccy found = true := by
  have hmem : l ∈ st.loans.filter (matchesRefund lender borrower amount ccy) :=
    List.mem_filter.mpr ⟨hl, hm⟩
  have hne : st.loans.filter (matchesRefund lender borrower amount ccy) ≠ [] :=
    List.ne_nil_of_mem hmem
  have hs := mostRecent_isSome hne
  rcases hsome : mostRecent (st.loans.filter (matchesRefund lender borrower amount ccy))
      with _ | found
  · simp [hsome] at hs
  · have hmem2 := mostRecent_mem hsome
    exact ⟨found, hsome, (List.mem_filter.mp hmem2).1, (List.mem_filter.mp hmem2).2⟩

theorem processRefund_notLender_eq (st : Ledger) (author borrower lender : String)
    (amount : ℚ) (currency : String) (h : lowerStr author ≠ lender) :
    processRefund author borrower lender amount currency st = (st, RefundOutcome.notLender) := by
  simp [processRefund, h]

theorem processRefund_notFound_eq (st : Ledger) (author borrower lender : String)
    (amount : ℚ) (currency : String) (hauthor : lowerStr author = lender)
    (hfind : findLoanForRefund st lender borrower amount currency = none) :
    processRefund author borrower lender amount currency st = (st, RefundOutcome.notFound) := by
  simp only [processRefund, hauthor, hfind]
  simp

theorem processRefund_found_eq (st : Ledger) (author borrower lender : String)
    (amount : ℚ) (currency : String) (loan : Loan)
    (hauthor : lowerStr author = lender)
    (hfind : findLoanForRefund st lender borrower amount currency = some loan) :
    processRefund author borrower lender amount currency st =
      ({ loans := st.loans.map (fun l => if l.id == loan.id
            then { l with status := LoanStatus.refunded } else l)
         users := updateUser (updateUser st.users lender (refundLenderUpd amount))
            borrower (refundBorrowerUpd amount)
         nextId := st.nextId }, RefundOutcome.success) := by
  simp only [processRefund, hauthor, hfind]
  simp

/-! ## Invariants of reachable states -/

theorem processLoanOffer_fst (parsed : Option (ℚ × String)) (author : String)
    (postAuthor : Option String) (st : Ledger) :
    (processLoanOffer parsed author postAuthor st).1 = st := by
  rcases parsed with _ | ⟨a, c⟩
  · rfl
  · rcases postAuthor with _ | pa
    · rfl
    · by_cases h : lowerStr pa = lowerStr author <;>
        simp [processLoanOffer, h]

theorem mem_updateUser {us : List (String × UserStats)} {u : String}
    {f : UserStats → UserStats} {p : String × UserStats}
    (hp : p ∈ updateUser us u f) :
    p ∈ us ∨ ∃ q ∈ us, p = (q.1, f q.2) := by
  unfold updateUser at hp
  rcases List.mem_map.mp hp with ⟨q, hq, hpe⟩
  by_cases hc : (q.1 == u) = true
  · right; exact ⟨q, hq, by rw [← hpe, if_pos hc]⟩
  · left; rw [← hpe, if_neg hc]; exact hq

theorem mem_upsertUser {us : List (String × UserStats)} {u : String}
    {init : UserStats} {f : UserStats → UserStats} {p : String × UserStats}
    (hp : p ∈ upsertUser us u init f) :
    p ∈ us ∨ (∃ q ∈ us, p = (q.1, f q.2)) ∨ p = (u, init) := by
  unfold upsertUser at hp
  rcases h : findUser us u with _ | s <;> rw [h] at hp
  · rcases List.mem_append.mp hp with h1 | h1
    · exact Or.inl h1
    · right; right; simpa using h1
  · rcases mem_updateUser hp with h1 | h1
    · exact Or.inl h1
    · exact Or.inr (Or.inl h1)

theorem users_pred_update {P : UserStats → Prop} {us : List (String × UserStats)}
    {u : String} {f : UserStats → UserStats}
    (hall : ∀ p ∈ us, P p.2) (hf : ∀ s, P s → P (f s)) :
    ∀ p ∈ updateUser us u f, P p.2 := by
  intro p hp
  rcases mem_updateUser hp with h1 | ⟨q, hq, rfl⟩
  · exact hall p h1
  · exact hf _ (hall q hq)

theorem users_pred_upsert {P : UserStats → Prop} {us : List (String × UserStats)}
    {u : String} {init : UserStats} {f : UserStats → UserStats}
    (hall : ∀ p ∈ us, P p.2) (hf : ∀ s, P s → P (f s)) (hinit : P init) :
    ∀ p ∈ upsertUser us u init f, P p.2 := by
  intro p hp
  rcases mem_upsertUser hp with h1 | ⟨q, hq, rfl⟩ | rfl
  · exact hall p h1
  · exact hf _ (hall q hq)
  · exact hinit

theorem confirmLenderInit_inv (amount : ℚ) (hamt : 0 ≤ amount) :
    GoodStats (confirmLenderInit amount) ∧ ZeroUnpaid (confirmLenderInit amount) := by
  simp [GoodStats, ZeroUnpaid, confirmLenderInit, UserStats.zero, hamt]

theorem confirmBorrowerInit_inv (amount : ℚ) (hamt : 0 ≤ amount) :
    GoodStats (confirmBorrowerInit amount) ∧ ZeroUnpaid (confirmBorrowerInit amount) := by
  simp [GoodStats, ZeroUnpaid, confirmBorrowerInit, UserStats.zero, hamt]

theorem confirmLenderUpd_inv (amount : ℚ) (hamt : 0 ≤ amount) (s : UserStats)
    (hs : GoodStats s ∧ ZeroUnpaid s) :
    GoodStats (confirmLenderUpd amount s) ∧ ZeroUnpaid (confirmLenderUpd amount s) := by
  obtain ⟨⟨g1, g2, g3, g4, g5, g6, g7⟩, z1, z2⟩ := hs
  simp only [GoodStats, ZeroUnpaid, confirmLenderUpd]
  refine ⟨⟨g1, by linarith, g3, by linarith, g5, g6, g7⟩, z1, z2⟩

theorem confirmBorrowerUpd_inv (amount : ℚ) (hamt : 0 ≤ amount) (s : UserStats)
    (hs : GoodStats s ∧ ZeroUnpaid s) :
    GoodStats (confirmBorrowerUpd amount s) ∧ ZeroUnpaid (confirmBorrowerUpd amount s) := by
  obtain ⟨⟨g1, g2, g3, g4, g5, g6, g7⟩, z1, z2⟩ := hs
  simp only [GoodStats, ZeroUnpaid, confirmBorrowerUpd]
  refine ⟨⟨by linarith, g2, by linarith, g4, g5, g6, g7⟩, z1, z2⟩

theorem paidAggUpd_inv (amountPaid : ℚ) (hamt : 0 ≤ amountPaid) (s : UserStats)
    (hs : GoodStats s ∧ ZeroUnpaid s) :
    GoodStats (paidAggUpd amountPaid s) ∧ ZeroUnpaid (paidAggUpd amountPaid s) := by
  obtain ⟨⟨g1, g2, g3, g4, g5, g6, g7⟩, z1, z2⟩ := hs
  simp only [GoodStats, ZeroUnpaid, paidAggUpd]
  refine ⟨⟨g1, g2, g3, g4, by linarith, g6, g7⟩, z1, z2⟩

theorem paidClampUpd_inv (loanAmount : ℚ) (hamt : 0 ≤ loanAmount) (s : UserStats)
    (hs : GoodStats s ∧ ZeroUnpaid s) :
    GoodStats (paidClampUpd loanAmount s) ∧ ZeroUnpaid (paidClampUpd loanAmount s) := by
  obtain ⟨⟨g1, g2, g3, g4, g5, g6, g7⟩, z1, z2⟩ := hs
  simp only [GoodStats, ZeroUnpaid, paidClampUpd]
  refine ⟨⟨g1, g2, g3, g4, g5, le_max_right _ _, le_max_right _ _⟩, ?_, ?_⟩
  · rw [z1]; simp
  · rw [z2]
    rw [max_eq_right]
    linarith

theorem refundLenderUpd_inv (amount : ℚ) (s : UserStats)
    (hs : GoodStats s ∧ ZeroUnpaid s) :
    GoodStats (refundLenderUpd amount s) ∧ ZeroUnpaid (refundLenderUpd amount s) := by
  obtain ⟨⟨g1, g2, g3, g4, g5, g6, g7⟩, z1, z2⟩ := hs
  simp only [GoodStats, ZeroUnpaid, refundLenderUpd]
  exact ⟨⟨g1, le_max_right _ _, g3, le_max_right _ _, g5, g6, g7⟩, z1, z2⟩

theorem refundBorrowerUpd_inv (amount : ℚ) (s : UserStats)
    (hs : GoodStats s ∧ ZeroUnpaid s) :
    GoodStats (refundBorrowerUpd amount s) ∧ ZeroUnpaid (refundBorrowerUpd amount s) := by
  obtain ⟨⟨g1, g2, g3, g4, g5, g6, g7⟩, z1, z2⟩ := hs
  simp only [GoodStats, ZeroUnpaid, refundBorrowerUpd]
  exact ⟨⟨le_max_right _ _, g2, le_max_right _ _, g4, g5, g6, g7⟩, z1, z2⟩

theorem ledgerInv_confirm (st : Ledger) (author namedLender : String)
    (amount : ℚ) (currency thread : String) (now : Nat)
    (h : LedgerInv st) (hamt : 0 ≤ amount) :
    LedgerInv (processConfirm author namedLender amount currency thread now st).1 := by
  obtain ⟨hloans, husers⟩ := h
  constructor
  · rw [processConfirm_loans]
    intro l hl
    rcases List.mem_append.mp hl with h1 | h1
    · exact hloans l h1
    · simp only [List.mem_singleton] at h1
      rw [h1]
      exact hamt
  · exact users_pred_upsert
      (users_pred_upsert husers
        (fun s hs => confirmLenderUpd_inv amount hamt s hs)
        (confirmLenderInit_inv amount hamt))
      (fun s hs => confirmBorrowerUpd_inv amount hamt s hs)
      (confirmBorrowerInit_inv amount hamt)

theorem ledgerInv_paid (st : Ledger) (author : String) (loanId : Nat)
    (amountPaid : ℚ) (currency : String)
    (h : LedgerInv st) (hamt : 0 ≤ amountPaid) :
    LedgerInv (processPaid author loanId amountPaid currency st).1 := by
  obtain ⟨hloans, husers⟩ := h
  rcases hfind : findLoanForPayment st loanId (lowerStr author) with _ | loan
  · rw [processPaid_notFound_eq st author loanId amountPaid currency hfind]
    exact ⟨hloans, husers⟩
  · by_cases hccy : loan.currency = upperStr currency
    · have hla : 0 ≤ loan.amount := hloans loan (findLoanInList_mem hfind)
      rw [processPaid_found_eq st author loanId amountPaid currency loan hfind hccy]
      constructor
      · intro l hl
        rcases List.mem_map.mp hl with ⟨l0, hl0, rfl⟩
        by_cases hid : (l0.id == loanId) = true
        · rw [if_pos hid]; exact hloans l0 hl0
        · rw [if_neg hid]; exact hloans l0 hl0
      · have hstep : ∀ p ∈ updateUser st.users loan.borrower (paidAggUpd amountPaid),
            GoodStats p.2 ∧ ZeroUnpaid p.2 :=
          users_pred_update husers (fun s hs => paidAggUpd_inv amountPaid hamt s hs)
        intro p hp
        have hp2 : p ∈ (if (if loan.amountRepaid + amountPaid ≥ loan.amount
              then LoanStatus.repaid else LoanStatus.partiallyRepaid) = LoanStatus.repaid
            then updateUser (updateUser st.users loan.borrower (paidAggUpd amountPaid))
              loan.borrower (paidClampUpd loan.amount)
            else updateUser st.users loan.borrower (paidAggUpd amountPaid)) := hp
        by_cases hrep : loan.amountRepaid + amountPaid ≥ loan.amount
        · rw [if_pos hrep, if_pos rfl] at hp2
          exact users_pred_update hstep (fun s hs => paidClampUpd_inv loan.amount hla s hs) p hp2
        · rw [if_neg hrep, if_neg (by simp)] at hp2
          exact hstep p hp2
    · rw [processPaid_mismatch_eq st author loanId amountPaid currency loan hfind hccy]
      exact ⟨hloans, husers⟩

theorem ledgerInv_refund (st : Ledger) (author borrower lender : String)
    (amount : ℚ) (currency : String)
    (h : LedgerInv st) (hamt : 0 ≤ amount) :
    LedgerInv (processRefund author borrower lender amount currency st).1 := by
  obtain ⟨hloans, husers⟩ := h
  by_cases hauthor : lowerStr author = lender
  · rcases hfind : findLoanForRefund st lender borrower amount currency with _ | loan
    · rw [processRefund_notFound_eq st author borrower lender amount currency hauthor hfind]
      exact ⟨hloans, husers⟩
    · rw [processRefund_found_eq st author borrower lender amount currency loan hauthor hfind]
      constructor
      · intro l hl
        rcases List.mem_map.mp hl with ⟨l0, hl0, rfl⟩
        by_cases hid : (l0.id == loan.id) = true
        · rw [if_pos hid]; exact hloans l0 hl0
        · rw [if_neg hid]; exact hloans l0 hl0
      · exact users_pred_update
          (users_pred_update husers (fun s hs => refundLenderUpd_inv amount s hs))
          (fun s hs => refundBorrowerUpd_inv amount s hs)
  · rw [processRefund_notLender_eq st author borrower lender amount currency hauthor]
    exact ⟨hloans, husers⟩

theorem reachable_inv {st : Ledger} (h : Reachable st) : LedgerInv st := by
  induction h with
  | init =>
    refine ⟨?_, ?_⟩ <;> intro x hx <;> simp [Ledger.init] at hx
  | offer parsed author postAuthor hst ih =>
    rwa [processLoanOffer_fst]
  | confirm author namedLender amount currency thread now hst hamt ih =>
    exact ledgerInv_confirm _ author namedLender amount currency thread now ih hamt
  | paid author loanId amountPaid currency hst hamt ih =>
    exact ledgerInv_paid _ author loanId amountPaid currency ih hamt
  | refund author borrower lender amount currency hst hamt ih =>
    exact ledgerInv_refund _ author borrower lender amount currency ih hamt

/-! ## Lemmas about the dispatch chain -/

theorem dispatch_eq_offer_iff (body : String) :
    dispatch body = some Handler.offer ↔
      strContains (lowerStr body) "$loan" = true := by
  simp only [dispatch]
  split_ifs with h1 h2 h3 h4 h5 <;> simp_all

theorem dispatch_eq_confirm_iff (body : String) :
    dispatch body = some Handler.confirm ↔
      (strContains (lowerStr body) "$loan" = false ∧
       strContains (lowerStr body) "$confirm" = true) := by
  simp only [dispatch]
  split_ifs with h1 h2 h3 h4 h5 <;> simp_all

theorem dispatch_eq_paid_iff (body : String) :
    dispatch body = some Handler.paid ↔
      (strContains (lowerStr body) "$loan" = false ∧
       strContains (lowerStr body) "$confirm" = false ∧
       strContains (lowerStr body) "$paid_with_id" = true) := by
  simp only [dispatch]
  split_ifs with h1 h2 h3 h4 h5 <;> simp_all

theorem dispatch_eq_refund_iff (body : String) :
    dispatch body = some Handler.refund ↔
      (strContains (lowerStr body) "$loan" = false ∧
       strContains (lowerStr body) "$confirm" = false ∧
       strContains (lowerStr body) "$paid_with_id" = false ∧
       strContains (lowerStr body) "refunded" = true) := by
  simp only [dispatch]
  split_ifs with h1 h2 h3 h4 h5 <;> simp_all

theorem dispatch_eq_stats_iff (body : String) :
    dispatch body = some Handler.stats ↔
      (strContains (lowerStr body) "$loan" = false ∧
       strContains (lowerStr body) "$confirm" = false ∧
       strContains (lowerStr body) "$paid_with_id" = false ∧
       strContains (lowerStr body) "refunded" = false ∧
       strContains (lowerStr body) "$stats" = true) := by
  simp only [dispatch]
  split_ifs with h1 h2 h3 h4 h5 <;> simp_all

/-! ## Claim theorems -/

/-- C3 counterexample: the claim says a Confirm whose named lender equals
the comment author (after lowercasing) creates no loan row and changes no
user statistics.  In fact `process_confirm_command` has no
`lender != borrower` check: the self-confirm `by Bob of /u/Bob` creates a
loan row with `lender = borrower = "bob"` and bumps both of that user's
lender and borrower counters. -/
theorem confirm_self_loan_counterexample :
    (processConfirm "Bob" "Bob" (50:ℚ) "USD" "t" 100 Ledger.init).1.loans.map Loan.lender
        = ["bob"] ∧
    (processConfirm "Bob" "Bob" (50:ℚ) "USD" "t" 100 Ledger.init).1.loans.map Loan.borrower
        = ["bob"] ∧
    (statsOf (processConfirm "Bob" "Bob" (50:ℚ) "USD" "t" 100 Ledger.init).1 "bob").loansAsLender
        = 1 ∧
    (statsOf (processConfirm "Bob" "Bob" (50:ℚ) "USD" "t" 100 Ledger.init).1 "bob").loansAsBorrower
        = 1 := by
  refine ⟨?_, ?_, ?_, ?_⟩ <;> decide

/-- C3 (amended): only the Offer path rejects self-loans; the Confirm
handler performs no `lender != borrower` check, so a Confirm naming the
author as lender creates a loan row whose lender equals its borrower
(the author lowercased) and increments that single user's lender and
borrower counters. -/
theorem confirm_self_loan_created (st : Ledger) (author : String)
    (amount : ℚ) (currency thread : String) (now : Nat) :
    (processConfirm author author amount currency thread now st).1.loans =
      st.loans ++
        [{ id := st.nextId, loanIdText := toString now
           lender := lowerStr author, borrower := lowerStr author
           amount := amount, currency := upperStr currency
           dateCreated := now, originalThread := thread
           status := LoanStatus.confirmed, amountRepaid := 0 }] ∧
    (statsOf (processConfirm author author amount currency thread now st).1
        (lowerStr author)).loansAsLender =
      (statsOf st (lowerStr author)).loansAsLender + 1 ∧
    (statsOf (processConfirm author author amount currency thread now st).1
        (lowerStr author)).loansAsBorrower =
      (statsOf st (lowerStr author)).loansAsBorrower + 1 :=
  ⟨processConfirm_loans st author author amount currency thread now,
   (processConfirm_stats st author author amount currency thread now).1,
   (processConfirm_stats st author author amount currency thread now).2.2.1⟩

/-- C4: every Confirm that commits creates the loan with
`amountRepaid = 0` and `status = confirmed`, increments the named
lender's `loansAsLender` and the author's `loansAsBorrower` by exactly 1,
and increments `amountLent` / `amountBorrowed` by exactly the principal,
creating the `users` row with those initial values when absent (the
`statsOf` read treats an absent row as the all-zero column defaults). -/
theorem confirm_success_spec (st : Ledger) (author namedLender : String)
    (amount : ℚ) (currency thread : String) (now : Nat) :
    (processConfirm author namedLender amount currency thread now st).1.loans =
      st.loans ++
        [{ id := st.nextId, loanIdText := toString now
           lender := lowerStr namedLender, borrower := lowerStr author
           amount := amount, currency := upperStr currency
           dateCreated := now, originalThread := thread
           status := LoanStatus.confirmed, amountRepaid := 0 }] ∧
    (statsOf (processConfirm author namedLender amount currency thread now st).1
        (lowerStr namedLender)).loansAsLender =
      (statsOf st (lowerStr namedLender)).loansAsLender + 1 ∧
    (statsOf (processConfirm author namedLender amount currency thread now st).1
        (lowerStr namedLender)).amountLent =
      (statsOf st (lowerStr namedLender)).amountLent + amount ∧
    (statsOf (processConfirm author namedLender amount currency thread now st).1
        (lowerStr author)).loansAsBorrower =
      (statsOf st (lowerStr author)).loansAsBorrower + 1 ∧
    (statsOf (processConfirm author namedLender amount currency thread now st).1
        (lowerStr author)).amountBorrowed =
      (statsOf st (lowerStr author)).amountBorrowed + amount :=
  ⟨processConfirm_loans st author namedLender amount currency thread now,
   (processConfirm_stats st author namedLender amount currency thread now).1,
   (processConfirm_stats st author namedLender amount currency thread now).2.1,
   (processConfirm_stats st author namedLender amount currency thread now).2.2.1,
   (processConfirm_stats st author namedLender amount currency thread now).2.2.2⟩

/-- C1 counterexample: the claim says a Paid command addressed to a loan
in terminal status (`repaid` here) is rejected with an explicit error and
no state change.  In fact the lookup `WHERE id = %s AND lender = %s` does
not inspect the status: the extra payment of 10 on the already repaid
50-loan succeeds and raises `amount_repaid` from 50 to 60. -/
theorem paid_terminal_claim_counterexample :
    (processPaid "alice" 1 (10:ℚ) "USD" repaidLedger).2.isSuccess = true ∧
    (processPaid "alice" 1 (10:ℚ) "USD" repaidLedger).1.loans =
      [{ id := 1, loanIdText := "100", lender := "alice", borrower := "bob"
         amount := 50, currency := "USD", dateCreated := 100, originalThread := "t"
         status := LoanStatus.repaid, amountRepaid := 60 }] := by
  rw [processPaid_found_eq repaidLedger "alice" 1 10 "USD" repaidLoanEx (by decide) (by decide)]
  refine ⟨rfl, ?_⟩
  norm_num [repaidLedger, repaidLoanEx]

/-- C1 (amended): a Paid command addressed to a loan in terminal status
(`repaid` or `refunded`) is not rejected: the lookup ignores the status
column, so whenever id, lender and currency match, the payment is applied
again — the outcome is a success reply and the loan row's `amountRepaid`
grows by `amountPaid` once more (with the status recomputed, and the
clamped unpaid decrement re-run whenever the recomputed status is
`repaid`); no terminal-state error exists in the code. -/
theorem paid_terminal_accepted (st : Ledger) (author : String) (loanId : Nat)
    (amountPaid : ℚ) (currency : String) (loan : Loan)
    (hfind : findLoanForPayment st loanId (lowerStr author) = some loan)
    (hccy : loan.currency = upperStr currency)
    (hterm : loan.status = LoanStatus.repaid ∨ loan.status = LoanStatus.refunded) :
    (processPaid author loanId amountPaid currency st).2.isSuccess = true ∧
    findLoanForPayment (processPaid author loanId amountPaid currency st).1
        loanId (lowerStr author) =
      some { loan with amountRepaid := loan.amountRepaid + amountPaid
                       status := if loan.amountRepaid + amountPaid ≥ loan.amount
                          then LoanStatus.repaid else LoanStatus.partiallyRepaid } := by
  rw [processPaid_found_eq st author loanId amountPaid currency loan hfind hccy]
  exact ⟨rfl, findLoanInList_map_paid _ _ hfind⟩

/-- C1 witness: the amended theorem applied to the concrete repaid loan. -/
theorem paid_terminal_accepted_witness :
    (processPaid "alice" 1 (10:ℚ) "USD" repaidLedger).2.isSuccess = true ∧
    findLoanForPayment (processPaid "alice" 1 (10:ℚ) "USD" repaidLedger).1
        1 (lowerStr "alice") =
      some { repaidLoanEx with
              amountRepaid := repaidLoanEx.amountRepaid + 10
              status := if repaidLoanEx.amountRepaid + 10 ≥ repaidLoanEx.amount
                 then LoanStatus.repaid else LoanStatus.partiallyRepaid } :=
  paid_terminal_accepted repaidLedger "alice" 1 10 "USD" repaidLoanEx
    (by decide) (by decide) (Or.inl rfl)

/-- C5: for every Paid command that passes the loan/lender/currency
checks (and whose borrower has a `users` row, as every loan created by
Confirm guarantees): the loan row's `amountRepaid` grows by exactly
`amountPaid` and its new status is `repaid` exactly when the new total
reaches the principal (else `partially_repaid`); the borrower's
`amountRepaid` aggregate grows by `amountPaid`; when the new status is
`repaid` the borrower's `unpaidLoans` and `unpaidAmount` receive the
clamped decrements by 1 / the principal, else they are unchanged; and
the reply reports the remaining balance `max (principal - repaid) 0`. -/
theorem paid_success_spec (st : Ledger) (author : String) (loanId : Nat)
    (amountPaid : ℚ) (currency : String) (loan : Loan)
    (hfind : findLoanForPayment st loanId (lowerStr author) = some loan)
    (hccy : loan.currency = upperStr currency)
    (hrow : (findUser st.users loan.borrower).isSome = true) :
    (processPaid author loanId amountPaid currency st).2 =
      PaidOutcome.success (max (loan.amount - (loan.amountRepaid + amountPaid)) 0) ∧
    (∀ la, findLoanForPayment (processPaid author loanId amountPaid currency st).1
        loanId (lowerStr author) = some la →
      la.amountRepaid = loan.amountRepaid + amountPaid ∧
      (la.status = LoanStatus.repaid ↔ loan.amountRepaid + amountPaid ≥ loan.amount) ∧
      (¬ loan.amountRepaid + amountPaid ≥ loan.amount →
        la.status = LoanStatus.partiallyRepaid)) ∧
    (statsOf (processPaid author loanId amountPaid currency st).1 loan.borrower).amountRepaid
      = (statsOf st loan.borrower).amountRepaid + amountPaid ∧
    (loan.amountRepaid + amountPaid ≥ loan.amount →
      (statsOf (processPaid author loanId amountPaid currency st).1 loan.borrower).unpaidLoans
        = max ((statsOf st loan.borrower).unpaidLoans - 1) 0 ∧
      (statsOf (processPaid author loanId amountPaid currency st).1 loan.borrower).unpaidAmount
        = max ((statsOf st loan.borrower).unpaidAmount - loan.amount) 0) ∧
    (¬ loan.amountRepaid + amountPaid ≥ loan.amount →
      (statsOf (processPaid author loanId amountPaid currency st).1 loan.borrower).unpaidLoans
        = (statsOf st loan.borrower).unpaidLoans ∧
      (statsOf (processPaid author loanId amountPaid currency st).1 loan.borrower).unpaidAmount
        = (statsOf st loan.borrower).unpaidAmount) := by
  obtain ⟨sB, hsB⟩ := Option.isSome_iff_exists.mp hrow
  have hstatsB : statsOf st loan.borrower = sB := by simp [statsOf, hsB]
  have hb := processPaid_borrower_stats st author loanId amountPaid currency loan sB
    hfind hccy hsB
  refine ⟨?_, ?_, ?_, ?_, ?_⟩
  · rw [processPaid_found_eq st author loanId amountPaid currency loan hfind hccy]
    rw [rat_if_pos_eq_max]
  · intro la hla
    have hla2 : la = { loan with
        amountRepaid := loan.amountRepaid + amountPaid,
        status := if loan.amountRepaid + amountPaid ≥ loan.amount
          then LoanStatus.repaid else LoanStatus.partiallyRepaid } := by
      have h2 : findLoanForPayment (processPaid author loanId amountPaid currency st).1
          loanId (lowerStr author) =
        some { loan with
          amountRepaid := loan.amountRepaid + amountPaid,
          status := if loan.amountRepaid + amountPaid ≥ loan.amount
            then LoanStatus.repaid else LoanStatus.partiallyRepaid } := by
        rw [processPaid_found_eq st author loanId amountPaid currency loan hfind hccy]
        exact findLoanInList_map_paid _ _ hfind
      rw [hla] at h2
      exact (Option.some.injEq _ _).mp h2.symm |>.symm
    subst hla2
    refine ⟨rfl, ?_, ?_⟩
    · by_cases hrep : loan.amountRepaid + amountPaid ≥ loan.amount <;>
        simp [hrep]
    · intro hrep; simp [hrep]
  · rw [hstatsB]; exact hb.1
  · intro hrep; rw [hstatsB]; exact hb.2.1 hrep
  · intro hrep; rw [hstatsB]; exact hb.2.2 hrep

/-- C5 witness: the theorem applied to a concrete partial payment of 20
on a confirmed 50-loan with an existing borrower row. -/
theorem paid_success_spec_witness :
    (processPaid "alice" 1 (20:ℚ) "USD" paidLedger).2 =
      PaidOutcome.success (max (paidLoanEx.amount - (paidLoanEx.amountRepaid + 20)) 0) ∧
    (statsOf (processPaid "alice" 1 (20:ℚ) "USD" paidLedger).1 paidLoanEx.borrower).amountRepaid
      = (statsOf paidLedger paidLoanEx.borrower).amountRepaid + 20 :=
  ⟨(paid_success_spec paidLedger "alice" 1 20 "USD" paidLoanEx
      (by decide) (by decide) (by decide)).1,
   (paid_success_spec paidLedger "alice" 1 20 "USD" paidLoanEx
      (by decide) (by decide) (by decide)).2.2.1⟩

/-- C6: a Paid command whose loan lookup (by id and comment author as
lender) finds nothing is answered with the loan-not-found error, and one
whose stated currency differs from the loan's currency is answered with
the currency-mismatch error; in both cases the returned ledger is the
input ledger, untouched. -/
theorem paid_checks_fail_no_change (st : Ledger) (author : String)
    (loanId : Nat) (amountPaid : ℚ) (currency : String) :
    (findLoanForPayment st loanId (lowerStr author) = none →
      processPaid author loanId amountPaid currency st = (st, PaidOutcome.loanNotFound)) ∧
    (∀ loan, findLoanForPayment st loanId (lowerStr author) = some loan →
      loan.currency ≠ upperStr currency →
      processPaid author loanId amountPaid currency st = (st, PaidOutcome.currencyMismatch)) :=
  ⟨fun h => processPaid_notFound_eq st author loanId amountPaid currency h,
   fun loan h1 h2 => processPaid_mismatch_eq st author loanId amountPaid currency loan h1 h2⟩

/-- C6 witness: Example 4 of the specification (Paid on loan id 7 stating
EUR against a USD loan yields the currency mismatch and no state change)
plus a lookup miss on the empty database. -/
theorem paid_checks_fail_no_change_witness :
    processPaid "alice" 7 (3:ℚ) "EUR" mismatchLedger
      = (mismatchLedger, PaidOutcome.currencyMismatch) ∧
    processPaid "alice" 7 (3:ℚ) "EUR" Ledger.init
      = (Ledger.init, PaidOutcome.loanNotFound) :=
  ⟨(paid_checks_fail_no_change mismatchLedger "alice" 7 3 "EUR").2
      mismatchLoanEx (by decide) (by decide),
   (paid_checks_fail_no_change Ledger.init "alice" 7 3 "EUR").1 (by decide)⟩

/-- C2 counterexample: the claim says the refund lookup returns only
non-refunded loans, so a second Refund for the same fields yields the
not-found error.  In fact the SELECT has no status filter: after the
first refund the same loan (now `refunded`) is found again and the
second refund succeeds. -/
theorem refund_lookup_claim_counterexample :
    ((processRefund "alice" "bob" "alice" 50 "USD" refundTwiceStart).2
        = RefundOutcome.success) ∧
    findLoanForRefund (processRefund "alice" "bob" "alice" 50 "USD" refundTwiceStart).1
        "alice" "bob" 50 "USD" =
      some { confirmedLoanEx with status := LoanStatus.refunded } ∧
    ((processRefund "alice" "bob" "alice" 50 "USD"
        (processRefund "alice" "bob" "alice" 50 "USD" refundTwiceStart).1).2
        = RefundOutcome.success) := by
  refine ⟨by decide, by decide, by decide⟩

/-- C2 (amended): the refund lookup does not filter by status — whenever
any loan row (refunded or not) matches (lender, borrower, amount,
currency), the lookup returns a matching row (most recent
`date_created`) and the lender-authored Refund succeeds.  Consequently a
second Refund for the same fields finds the already refunded loan again
and refunds it again (re-applying the clamped decrements) instead of
yielding the not-found error. -/
theorem refund_lookup_ignores_status (st : Ledger) (author borrower lender : String)
    (amount : ℚ) (ccy : String) (l : Loan)
    (hauthor : lowerStr author = lender)
    (hl : l ∈ st.loans) (hm : matchesRefund lender borrower amount ccy l = true) :
    (findLoanForRefund st lender borrower amount ccy).isSome = true ∧
    (∀ found, findLoanForRefund st lender borrower amount ccy = some found →
      found ∈ st.loans ∧ matchesRefund lender borrower amount ccy found = true) ∧
    (processRefund author borrower lender amount ccy st).2 = RefundOutcome.success := by
  obtain ⟨found, hfound, hmem, hmatch⟩ :=
    findLoanForRefund_of_matching st lender borrower amount ccy l hl hm
  refine ⟨by rw [hfound]; rfl, ?_, ?_⟩
  · intro f hf
    rw [hfound] at hf
    cases hf
    exact ⟨hmem, hmatch⟩
  · rw [processRefund_found_eq st author borrower lender amount ccy found hauthor hfound]

/-- C2 witness: the amended theorem applied to the ledger holding one
matching confirmed loan. -/
theorem refund_lookup_ignores_status_witness :
    (findLoanForRefund refundTwiceStart "alice" "bob" 50 "USD").isSome = true ∧
    (processRefund "alice" "bob" "alice" 50 "USD" refundTwiceStart).2
      = RefundOutcome.success :=
  ⟨(refund_lookup_ignores_status refundTwiceStart "alice" "bob" "alice" 50 "USD"
      confirmedLoanEx (by decide) (by decide) (by decide)).1,
   (refund_lookup_ignores_status refundTwiceStart "alice" "bob" "alice" 50 "USD"
      confirmedLoanEx (by decide) (by decide) (by decide)).2.2⟩

/-- C7: in every ledger state reachable through the core commands, every
field of every `users` row is non-negative; and each clamped decrement
(`GREATEST(x - d, 0)`) applied when the target field is already 0 leaves
it at 0, never negative — for the paid handler's unpaid decrements and
the refund handler's lender and borrower decrements. -/
theorem stats_nonneg_and_clamped :
    (∀ st, Reachable st → ∀ p ∈ st.users,
      0 ≤ p.2.loansAsBorrower ∧ 0 ≤ p.2.loansAsLender ∧ 0 ≤ p.2.amountBorrowed ∧
      0 ≤ p.2.amountLent ∧ 0 ≤ p.2.amountRepaid ∧ 0 ≤ p.2.unpaidLoans ∧
      0 ≤ p.2.unpaidAmount) ∧
    (∀ (a : ℚ) (s : UserStats), 0 ≤ a → s.unpaidLoans = 0 → s.unpaidAmount = 0 →
      (paidClampUpd a s).unpaidLoans = 0 ∧ (paidClampUpd a s).unpaidAmount = 0) ∧
    (∀ (a : ℚ) (s : UserStats), 0 ≤ a → s.loansAsLender = 0 → s.amountLent = 0 →
      (refundLenderUpd a s).loansAsLender = 0 ∧ (refundLenderUpd a s).amountLent = 0) ∧
    (∀ (a : ℚ) (s : UserStats), 0 ≤ a → s.loansAsBorrower = 0 → s.amountBorrowed = 0 →
      (refundBorrowerUpd a s).loansAsBorrower = 0 ∧
      (refundBorrowerUpd a s).amountBorrowed = 0) := by
  refine ⟨?_, ?_, ?_, ?_⟩
  · intro st hst p hp
    exact ((reachable_inv hst).2 p hp).1
  · intro a s ha h1 h2
    constructor
    · simp only [paidClampUpd]
      rw [h1]
      decide
    · simp only [paidClampUpd]
      rw [h2, max_eq_right (by linarith)]
  · intro a s ha h1 h2
    constructor
    · simp only [refundLenderUpd]
      rw [h1]
      decide
    · simp only [refundLenderUpd]
      rw [h2, max_eq_right (by linarith)]
  · intro a s ha h1 h2
    constructor
    · simp only [refundBorrowerUpd]
      rw [h1]
      decide
    · simp only [refundBorrowerUpd]
      rw [h2, max_eq_right (by linarith)]

/-- C7 witness: the non-negativity applied to the lender row of a
reachable one-confirm ledger, and one clamp applied at zero. -/
theorem stats_nonneg_and_clamped_witness :
    (0 ≤ (confirmLenderInit 50).loansAsLender) ∧
    ((paidClampUpd 50 UserStats.zero).unpaidLoans = 0 ∧
     (paidClampUpd 50 UserStats.zero).unpaidAmount = 0) :=
  ⟨(stats_nonneg_and_clamped.1 confirmEx
      (Reachable.confirm "Bob" "Alice" 50 "USD" "t" 100 Reachable.init (by decide))
      ("alice", confirmLenderInit 50) (by decide)).2.1,
   stats_nonneg_and_clamped.2.1 50 UserStats.zero (by decide) rfl rfl⟩

/-- C8: processing an Offer command never mutates the ledger (the
handler opens no database connection on any path), and when the post has
no author or the lowercased post author equals the lowercased comment
author (self-loan) the command produces no user-facing reply. -/
theorem offer_no_persistence_and_silent (parsed : Option (ℚ × String))
    (author : String) (postAuthor : Option String) (st : Ledger) :
    (processLoanOffer parsed author postAuthor st).1 = st ∧
    ((postAuthor = none ∨ postAuthor.map lowerStr = some (lowerStr author)) →
      OfferOutcome.hasReply (processLoanOffer parsed author postAuthor st).2 = false) := by
  refine ⟨processLoanOffer_fst parsed author postAuthor st, ?_⟩
  intro hcase
  rcases parsed with _ | ⟨a, c⟩
  · rfl
  · rcases postAuthor with _ | pa
    · rfl
    · rcases hcase with h | h
      · simp at h
      · have hlp : lowerStr pa = lowerStr author := by simpa using h
        simp [processLoanOffer, hlp, OfferOutcome.hasReply]

/-- C8 witness: a parsed self-loan offer (author `bob`, post author
`Bob`) leaves the ledger untouched and sends no reply. -/
theorem offer_no_persistence_and_silent_witness :
    (processLoanOffer (some (5, "usd")) "bob" (some "Bob") Ledger.init).1 = Ledger.init ∧
    OfferOutcome.hasReply
      (processLoanOffer (some (5, "usd")) "bob" (some "Bob") Ledger.init).2 = false :=
  ⟨(offer_no_persistence_and_silent (some (5, "usd")) "bob" (some "Bob") Ledger.init).1,
   (offer_no_persistence_and_silent (some (5, "usd")) "bob" (some "Bob") Ledger.init).2
     (Or.inr (by decide))⟩

/-- C9: the dispatch of `comment_monitor` selects at most one handler
(its result is a single `Option Handler`), and it returns handler `h`
exactly when the body contains the marker of `h` and none of the markers
of the handlers earlier in the if/elif precedence chain (offer, confirm,
paid, refund, stats) — so a comment containing several markers triggers
only the highest-precedence one. -/
theorem dispatch_first_match (body : String) (h : Handler) :
    dispatch body = some h ↔
      (strContains (lowerStr body) h.marker = true ∧
       ∀ g : Handler, g.prec < h.prec → strContains (lowerStr body) g.marker = false) := by
  cases h
  · rw [dispatch_eq_offer_iff]
    constructor
    · intro hc
      exact ⟨hc, fun g hg => absurd hg (Nat.not_lt_zero _)⟩
    · rintro ⟨hc, _⟩
      exact hc
  · rw [dispatch_eq_confirm_iff]
    constructor
    · rintro ⟨h1, h2⟩
      refine ⟨h2, ?_⟩
      intro g hg
      cases g
      · exact h1
      · exact absurd hg (by decide)
      · exact absurd hg (by decide)
      · exact absurd hg (by decide)
      · exact absurd hg (by decide)
    · rintro ⟨hc, hprev⟩
      exact ⟨hprev Handler.offer (by decide), hc⟩
  · rw [dispatch_eq_paid_iff]
    constructor
    · rintro ⟨h1, h2, h3⟩
      refine ⟨h3, ?_⟩
      intro g hg
      cases g
      · exact h1
      · exact h2
      · exact absurd hg (by decide)
      · exact absurd hg (by decide)
      · exact absurd hg (by decide)
    · rintro ⟨hc, hprev⟩
      exact ⟨hprev Handler.offer (by decide), hprev Handler.confirm (by decide), hc⟩
  · rw [dispatch_eq_refund_iff]
    constructor
    · rintro ⟨h1, h2, h3, h4⟩
      refine ⟨h4, ?_⟩
      intro g hg
      cases g
      · exact h1
      · exact h2
      · exact h3
      · exact absurd hg (by decide)
      · exact absurd hg (by decide)
    · rintro ⟨hc, hprev⟩
      exact ⟨hprev Handler.offer (by decide), hprev Handler.confirm (by decide),
        hprev Handler.paid (by decide), hc⟩
  · rw [dispatch_eq_stats_iff]
    constructor
    · rintro ⟨h1, h2, h3, h4, h5⟩
      refine ⟨h5, ?_⟩
      intro g hg
      cases g
      · exact h1
      · exact h2
      · exact h3
      · exact h4
      · exact absurd hg (by decide)
    · rintro ⟨hc, hprev⟩
      exact ⟨hprev Handler.offer (by decide), hprev Handler.confirm (by decide),
        hprev Handler.paid (by decide), hprev Handler.refund (by decide), hc⟩

/-- C9 witness: the characterization applied to a comment containing
both the confirm and the stats markers — the confirm handler wins. -/
theorem dispatch_first_match_witness :
    strContains (lowerStr "a $confirm b $stats") "$confirm" = true :=
  ((dispatch_first_match "a $confirm b $stats" Handler.confirm).mp (by decide)).1

/-- C10: in every ledger state reachable through the core commands alone,
every `users` row has `unpaidLoans = 0` and `unpaidAmount = 0`: Confirm
creates rows with the unpaid columns at their 0 defaults and never
touches them, Paid only applies the clamped decrement (a no-op at 0),
and Refund does not touch the unpaid columns. -/
theorem core_commands_unpaid_zero (st : Ledger) (hst : Reachable st) :
    ∀ p ∈ st.users, p.2.unpaidLoans = 0 ∧ p.2.unpaidAmount = 0 :=
  fun p hp => ((reachable_inv hst).2 p hp).2

/-- C10 witness: the theorem applied to the borrower row of a reachable
one-confirm ledger. -/
theorem core_commands_unpaid_zero_witness :
    (confirmBorrowerInit 50).unpaidLoans = 0 ∧ (confirmBorrowerInit 50).unpaidAmount = 0 :=
  core_commands_unpaid_zero confirmEx
    (Reachable.confirm "Bob" "Alice" 50 "USD" "t" 100 Reachable.init (by decide))
    ("bob", confirmBorrowerInit 50) (by decide)

/-! ## Every loan's borrower has a users row in reachable states
(justifying the row-existence hypothesis of the paid-success theorem) -/

theorem findUser_updateUser_isSome (us : List (String × UserStats)) (u : String)
    (f : UserStats → UserStats) (v : String) :
    (findUser (updateUser us u f) v).isSome = (findUser us v).isSome := by
  rw [findUser_updateUser]
  by_cases hvu : v = u <;> simp [hvu]

theorem findUser_upsertUser_isSome (us : List (String × UserStats)) (u : String)
    (init : UserStats) (f : UserStats → UserStats) (v : String)
    (hv : (findUser us v).isSome = true) :
    (findUser (upsertUser us u init f) v).isSome = true := by
  rw [findUser_upsertUser]
  by_cases hvu : v = u <;> simp [hvu, hv]

theorem reachable_borrower_row {st : Ledger} (h : Reachable st) :
    ∀ l ∈ st.loans, (findUser st.users l.borrower).isSome = true := by
  induction h with
  | init => intro l hl; simp [Ledger.init] at hl
  | offer parsed author postAuthor hst ih =>
    rw [processLoanOffer_fst]
    exact ih
  | confirm author namedLender amount currency thread now hst hamt ih =>
    intro l hl
    rw [processConfirm_loans] at hl
    rcases List.mem_append.mp hl with h1 | h1
    · exact findUser_upsertUser_isSome _ _ _ _ _
        (findUser_upsertUser_isSome _ _ _ _ _ (ih l h1))
    · simp only [List.mem_singleton] at h1
      subst h1
      show (findUser (upsertUser
          (upsertUser _ (lowerStr namedLender)
            (confirmLenderInit amount) (confirmLenderUpd amount))
          (lowerStr author) (confirmBorrowerInit amount) (confirmBorrowerUpd amount))
          (lowerStr author)).isSome = true
      rw [findUser_upsertUser]
      simp
  | paid author loanId amountPaid currency hst hamt ih =>
    rcases hfind : findLoanForPayment _ loanId (lowerStr author) with _ | loan
    · rw [processPaid_notFound_eq _ author loanId amountPaid currency hfind]
      exact ih
    · by_cases hccy : loan.currency = upperStr currency
      · rw [processPaid_found_eq _ author loanId amountPaid currency loan hfind hccy]
        intro l hl
        rcases List.mem_map.mp hl with ⟨l0, hl0, rfl⟩
        have hb : ∀ us2, (findUser us2 l0.borrower).isSome = true →
            (findUser us2 (if (l0.id == loanId) = true
              then { l0 with
                amountRepaid := loan.amountRepaid + amountPaid,
                status := if loan.amountRepaid + amountPaid ≥ loan.amount
                  then LoanStatus.repaid else LoanStatus.partiallyRepaid }
              else l0).borrower).isSome = true := by
          intro us2 hv
          by_cases hid : (l0.id == loanId) = true <;> simp [hid, hv]
        apply hb
        show (findUser (if (if loan.amountRepaid + amountPaid ≥ loan.amount
              then LoanStatus.repaid else LoanStatus.partiallyRepaid) = LoanStatus.repaid
            then updateUser (updateUser _ loan.borrower (paidAggUpd amountPaid))
              loan.borrower (paidClampUpd loan.amount)
            else updateUser _ loan.borrower (paidAggUpd amountPaid))
          l0.borrower).isSome = true
        by_cases hrep : loan.amountRepaid + amountPaid ≥ loan.amount
        · rw [if_pos hrep, if_pos rfl, findUser_updateUser_isSome, findUser_updateUser_isSome]
          exact ih l0 hl0
        · rw [if_neg hrep, if_neg (by simp), findUser_updateUser_isSome]
          exact ih l0 hl0
      · rw [processPaid_mismatch_eq _ author loanId amountPaid currency loan hfind hccy]
        exact ih
  | refund author borrower lender amount currency hst hamt ih =>
    by_cases hauthor : lowerStr author = lender
    · rcases hfind : findLoanForRefund _ lender borrower amount currency with _ | loan
      · rw [processRefund_notFound_eq _ author borrower lender amount currency hauthor hfind]
        exact ih
      · rw [processRefund_found_eq _ author borrower lender amount currency loan hauthor hfind]
        intro l hl
        rcases List.mem_map.mp hl with ⟨l0, hl0, rfl⟩
        have hb : ((if (l0.id == loan.id) = true
            then { l0 with status := LoanStatus.refunded } else l0).borrower) = l0.borrower := by
          by_cases hid : (l0.id == loan.id) = true <;> simp [hid]
        rw [hb, findUser_updateUser_isSome, findUser_updateUser_isSome]
        exact ih l0 hl0
    · rw [processRefund_notLender_eq _ author borrower lender amount currency hauthor]
      exact ih
